import Mathlib

/-!
Verification development for the Taichung real-estate price-query service.

The Python sources embedded here are `src/services/price_query.py` and
`src/services/official_data_downloader.py`.  Strings are modelled as Lean
`String` (lists of Unicode scalar values, matching Python `str` code points),
machine floats as exact rationals `ℚ`, and `datetime` values as explicit
year/month/day triples.  Effectful inputs (`datetime.now()`) are passed as
explicit parameters.  Fallible Python code (exception-raising) is modelled
with `Option` / `Except`.
-/

namespace HomeScout

/-! ## Generic string helpers (code-point semantics of Python `str`) -/

/-- Python `needle in haystack` on lists of characters: `needle` occurs as a
contiguous infix.  The empty needle occurs in every string. -/
def containsSub (needle : List Char) : List Char → Bool
  | [] => needle.isEmpty
  | c :: t => needle.isPrefixOf (c :: t) || containsSub needle t

/-- Occurrence test lifted to `String` (Python `a in b`). -/
def strContains (haystack needle : String) : Bool :=
  containsSub needle.data haystack.data

/-- Auxiliary worker for `strReplace`: replaces every non-overlapping,
left-to-right occurrence of `old` (assumed nonempty) by `new`.  The `fuel`
argument only drives structural recursion; it is called with the length of
the scanned list, which suffices because every step consumes at least one
character. -/
def replaceAux (old new : List Char) : ℕ → List Char → List Char
  | 0, s => s
  | _ + 1, [] => []
  | fuel + 1, c :: t =>
    match old with
    | [] => c :: t
    | _ :: _ =>
      if old.isPrefixOf (c :: t) then
        new ++ replaceAux old new fuel (t.drop (old.length - 1))
      else
        c :: replaceAux old new fuel t

/-- Python `s.replace(old, new)`: all non-overlapping occurrences, scanning
left to right.  (With an empty `old` Python interleaves `new` everywhere; the
code under verification only ever replaces nonempty literals, where this
definition agrees, returning `s` unchanged on empty `old`.) -/
def strReplace (s old new : String) : String :=
  if old.isEmpty then s else ⟨replaceAux old.data new.data s.data.length s.data⟩

/-- Python `s.strip()`: remove leading and trailing whitespace. -/
def strip (s : String) : String :=
  ⟨(((s.data.dropWhile Char.isWhitespace).reverse).dropWhile Char.isWhitespace).reverse⟩

/-- Value of a digit string (most significant digit first). -/
def digitsToNat (l : List Char) : Nat :=
  l.foldl (fun a c => a * 10 + (c.toNat - 48)) 0

/-- Python `int(s)` restricted to nonempty all-digit strings (the only shapes
the embedded code feeds it); anything else raises, i.e. `none`. -/
def parseNatDigits (l : List Char) : Option Nat :=
  if l ≠ [] ∧ l.all Char.isDigit then some (digitsToNat l) else none

/-- Python `float(s)` restricted to the numeric literals occurring in the
register data: optional leading `-`, a digit run, optionally `.` and a digit
run.  Other inputs raise `ValueError`, i.e. `none`. -/
def parseFloat? (s : String) : Option ℚ :=
  let core : List Char → Option ℚ := fun cs =>
    let intPart := cs.takeWhile Char.isDigit
    let rest := cs.dropWhile Char.isDigit
    match rest with
    | [] => if intPart = [] then none else some (digitsToNat intPart)
    | '.' :: frac =>
      if intPart ≠ [] ∧ frac ≠ [] ∧ frac.all Char.isDigit then
        some ((digitsToNat intPart : ℚ) + (digitsToNat frac : ℚ) / (10 ^ frac.length : ℚ))
      else none
    | _ => none
  match s.data with
  | '-' :: rest => (core rest).map (fun q => -q)
  | cs => core cs

/-- Python `s.replace(",", "")`: strip every thousands separator. -/
def stripCommas (s : String) : String :=
  ⟨s.data.filter (fun c => c ≠ ',')⟩

/-- Round-half-to-even on an exact rational, Python's `round` tie rule
(`Rat.floor` is the computable floor, equal to `⌊·⌋`). -/
def roundHalfEven (q : ℚ) : ℤ :=
  let f := q.floor
  let r := q - (f : ℚ)
  if r < 1/2 then f
  else if 1/2 < r then f + 1
  else if f % 2 = 0 then f else f + 1

/-- Python `round(x, 2)` over the exact-rational model of the float. -/
def round2 (q : ℚ) : ℚ := (roundHalfEven (q * 100) : ℚ) / 100

/-- Python `int(x)` on a float: truncation toward zero. -/
def truncQ (q : ℚ) : ℤ := if 0 ≤ q then q.floor else q.ceil

/-! ## Python's string order (lexicographic on code points)

Python compares strings lexicographically by code point; `sorted` uses this
order.  It is defined here structurally (on the code-point lists) so that
concrete sorts compute. -/

/-- Lexicographic strict order on code-point lists. -/
def charListLt : List Char → List Char → Bool
  | [], [] => false
  | [], _ :: _ => true
  | _ :: _, [] => false
  | a :: as, b :: bs =>
    if a.toNat < b.toNat then true
    else if a.toNat = b.toNat then charListLt as bs
    else false

/-- Python's `≤` on strings, the order `sorted(...)` sorts by. -/
def pyLe (a b : String) : Prop := charListLt b.data a.data = false

instance : DecidableRel pyLe := fun a b =>
  instDecidableEqBool (charListLt b.data a.data) false

theorem charListLt_irrefl : ∀ l : List Char, charListLt l l = false
  | [] => rfl
  | a :: as => by
    simp only [charListLt, Nat.lt_irrefl, if_false, if_pos rfl]
    exact charListLt_irrefl as

theorem charListLt_trans : ∀ l m n : List Char,
    charListLt l m = true → charListLt m n = true → charListLt l n = true
  | [], [], _, h1, _ => by cases h1
  | [], _ :: _, [], _, h2 => by cases h2
  | [], _ :: _, _ :: _, _, _ => rfl
  | _ :: _, [], _, h1, _ => by cases h1
  | _ :: _, _ :: _, [], _, h2 => by cases h2
  | a :: as, b :: bs, c :: cs, h1, h2 => by
    simp only [charListLt] at h1 h2 ⊢
    by_cases hab : a.toNat < b.toNat <;> by_cases hbc : b.toNat < c.toNat
    · rw [if_pos (by omega)]
    · rw [if_neg hbc] at h2
      by_cases hbc' : b.toNat = c.toNat
      · rw [if_pos (by omega)]
      · rw [if_neg hbc'] at h2
        cases h2
    · rw [if_neg hab] at h1
      by_cases hab' : a.toNat = b.toNat
      · rw [if_pos (by omega)]
      · rw [if_neg hab'] at h1
        cases h1
    · rw [if_neg hab] at h1
      rw [if_neg hbc] at h2
      by_cases hab' : a.toNat = b.toNat
      · by_cases hbc' : b.toNat = c.toNat
        · rw [if_neg (by omega : ¬a.toNat < c.toNat), if_pos (by omega : a.toNat = c.toNat)]
          rw [if_pos hab'] at h1
          rw [if_pos hbc'] at h2
          exact charListLt_trans as bs cs h1 h2
        · rw [if_neg hbc'] at h2
          cases h2
      · rw [if_neg hab'] at h1
        cases h1

theorem charListLt_connex : ∀ l m : List Char,
    charListLt l m = false → charListLt m l = false → l = m
  | [], [], _, _ => rfl
  | [], _ :: _, h1, _ => by cases h1
  | _ :: _, [], _, h2 => by cases h2
  | a :: as, b :: bs, h1, h2 => by
    simp only [charListLt] at h1 h2
    by_cases hab : a.toNat < b.toNat
    · rw [if_pos hab] at h1
      cases h1
    · by_cases hba : b.toNat < a.toNat
      · rw [if_pos hba] at h2
        cases h2
      · have he : a.toNat = b.toNat := by omega
        have hc : a = b := Char.eq_of_val_eq (UInt32.ext he)
        rw [if_neg hab, if_pos he] at h1
        rw [if_neg hba, if_pos he.symm] at h2
        rw [hc, charListLt_connex as bs h1 h2]

theorem pyLe_refl (a : String) : pyLe a a := charListLt_irrefl a.data

theorem pyLe_trans {a b c : String} (h1 : pyLe a b) (h2 : pyLe b c) : pyLe a c := by
  unfold pyLe at h1 h2 ⊢
  by_cases hca : charListLt c.data a.data = true
  · by_cases hba : charListLt b.data a.data = true
    · rw [hba] at h1
      cases h1
    · by_cases hab : charListLt a.data b.data = true
      · have := charListLt_trans _ _ _ hca hab
        rw [this] at h2
        cases h2
      · have : a.data = b.data :=
          charListLt_connex _ _ (Bool.eq_false_iff.mpr hab)
            (Bool.eq_false_iff.mpr hba)
        rw [← this] at h2
        rw [h2] at hca
        cases hca
  · exact Bool.eq_false_iff.mpr hca

theorem pyLe_total (a b : String) : pyLe a b ∨ pyLe b a := by
  unfold pyLe
  by_cases h : charListLt b.data a.data = true
  · right
    by_cases h' : charListLt a.data b.data = true
    · have := charListLt_trans _ _ _ h h'
      rw [charListLt_irrefl] at this
      cases this
    · exact Bool.eq_false_iff.mpr h'
  · exact Or.inl (Bool.eq_false_iff.mpr h)

instance : IsTotal String pyLe := ⟨pyLe_total⟩

instance : IsTrans String pyLe := ⟨fun _ _ _ => pyLe_trans⟩

instance : IsRefl String pyLe := ⟨pyLe_refl⟩

/-- Python `sorted(l)` on strings: stable ascending sort by `pyLe`. -/
def sortStrings (l : List String) : List String := List.insertionSort pyLe l

/-! ## Data model of `price_query.py` -/

/-- One CSV row (Python `Dict[str, str]` from `csv.DictReader`).  Field names
romanize the CSV columns the code reads via `row.get`:
`district` = 鄉鎮市區, `address` = 土地位置建物門牌, `dateStr` = 交易年月日,
`totalPrice` = 總價元, `buildingAreaM2` = 建物移轉總面積平方公尺,
`unitPriceM2` = 單價元平方公尺, `landAreaM2` = 土地移轉總面積平方公尺,
`age` = 屋齡, `buildingType` = 建物型態, `floorStr` = 移轉層次.
A column absent from the file is the `get` default: `""` (or `"0"` for the
numeric columns, which the conversion code treats identically to `""`). -/
structure Row where
  district : String := ""
  address : String := ""
  dateStr : String := ""
  totalPrice : String := "0"
  buildingAreaM2 : String := "0"
  unitPriceM2 : String := "0"
  landAreaM2 : String := "0"
  age : String := ""
  buildingType : String := ""
  floorStr : String := ""
deriving DecidableEq, Repr

/-- The `@dataclass Transaction` of `price_query.py`. -/
structure Transaction where
  district : String
  road : String
  price : ℚ
  unit_price : ℚ
  building_area : ℚ
  land_area : ℚ
  building_age : Option ℤ
  transaction_date : String
  building_type : String
  floor : Option String
deriving DecidableEq, Repr

/-- The `@dataclass ProjectGroup` of `price_query.py`. -/
structure ProjectGroup where
  road_name : String
  address_range : String
  min_number : ℕ
  max_number : ℕ
  transaction_count : ℕ
  avg_price : ℚ
  avg_unit_price : ℚ
  addresses : List String
  transactions : List Transaction
deriving DecidableEq, Repr

/-- The table `TAICHUNG_DISTRICTS` of `price_query.py`, as an association list in the
dict's insertion order (Python dicts iterate in insertion order). -/
def TAICHUNG_DISTRICTS : List (String × String) :=
  [("中區", "中區"), ("東區", "東區"), ("西區", "西區"), ("南區", "南區"),
   ("北區", "北區"), ("西屯", "西屯區"), ("西屯區", "西屯區"),
   ("南屯", "南屯區"), ("南屯區", "南屯區"), ("北屯", "北屯區"),
   ("北屯區", "北屯區"), ("豐原", "豐原區"), ("豐原區", "豐原區"),
   ("東勢", "東勢區"), ("東勢區", "東勢區"), ("大甲", "大甲區"),
   ("大甲區", "大甲區"), ("清水", "清水區"), ("清水區", "清水區"),
   ("沙鹿", "沙鹿區"), ("沙鹿區", "沙鹿區"), ("梧棲", "梧棲區"),
   ("梧棲區", "梧棲區"), ("后里", "后里區"), ("后里區", "后里區"),
   ("神岡", "神岡區"), ("神岡區", "神岡區"), ("潭子", "潭子區"),
   ("潭子區", "潭子區"), ("大雅", "大雅區"), ("大雅區", "大雅區"),
   ("新社", "新社區"), ("新社區", "新社區"), ("石岡", "石岡區"),
   ("石岡區", "石岡區"), ("外埔", "外埔區"), ("外埔區", "外埔區"),
   ("大安", "大安區"), ("大安區", "大安區"), ("烏日", "烏日區"),
   ("烏日區", "烏日區"), ("大肚", "大肚區"), ("大肚區", "大肚區"),
   ("龍井", "龍井區"), ("龍井區", "龍井區"), ("霧峰", "霧峰區"),
   ("霧峰區", "霧峰區"), ("太平", "太平區"), ("太平區", "太平區"),
   ("大里", "大里區"), ("大里區", "大里區"), ("和平", "和平區"),
   ("和平區", "和平區")]

/-- Python `a.startswith(k)`. -/
def startsWith (a k : String) : Bool := k.data.isPrefixOf a.data

/-- The function `normalize_area` of `price_query.py`: strip the literal `台中市`, then
match the first district key (dict order) that prefixes the remainder; the
text after the key, stripped, becomes the road (or `none` when empty). -/
def normalize_area (area : String) : Option String × Option String :=
  match TAICHUNG_DISTRICTS.find? (fun kv =>
      startsWith (strip (strReplace area "台中市" "")) kv.1) with
  | none => (none, none)
  | some kv =>
    let remaining :=
      strip ⟨(strip (strReplace area "台中市" "")).data.drop kv.1.data.length⟩
    (some kv.2, if remaining = "" then none else some remaining)

/-- Python `s.lower()`; for the CJK strings involved this only affects ASCII
letters, matching `Char.toLower`. -/
def lowerStr (s : String) : String := ⟨s.data.map Char.toLower⟩

/-- The distinct values of `TAICHUNG_DISTRICTS` (Python `set(...values())`).
Python's set iteration order is unspecified; we fix first-occurrence order.
Every property proved below about suggestions is order-independent. -/
def districtValues : List String := (TAICHUNG_DISTRICTS.map (·.2)).dedup

/-- The function `suggest_similar_areas` of `price_query.py`: bidirectional substring
match against the district names with the `區` suffix removed; at most 5. -/
def suggest_similar_areas (query : String) : List String :=
  let q := strReplace (lowerStr query) "區" ""
  let suggestions := districtValues.filter (fun district =>
    let base := lowerStr (strReplace district "區" "")
    strContains base q || strContains q base)
  suggestions.take 5

/-- The function `filter_by_district_and_road` of `price_query.py`: keep rows whose
stripped district fuzzily matches the normalized query (bidirectional
containment, also with `區` removed), and—when a road is given and
nonempty—whose address contains the road text. -/
def filter_by_district_and_road (data : List Row) (district : String)
    (road : Option String) : List Row :=
  let normalized := strip (strReplace (strReplace district "台中市" "") "臺中市" "")
  data.filter (fun row =>
    let rowDistrict := strip row.district
    rowDistrict ≠ "" &&
    (strContains rowDistrict normalized || strContains normalized rowDistrict ||
     strContains rowDistrict (strReplace normalized "區" "") ||
     strContains normalized (strReplace rowDistrict "區" "")) &&
    (match road with
     | none => true
     | some r => r = "" || strContains row.address r))

/-! ## Dates and the date-window filter -/

/-- A Python `datetime` date (the code never inspects the time of day of a
parsed transaction date; it is always midnight). -/
structure MDate where
  year : ℕ
  month : ℕ
  day : ℕ
deriving DecidableEq, Repr

/-- Gregorian leap-year rule used by `datetime`. -/
def isLeap (y : ℕ) : Bool := y % 4 = 0 && (y % 100 ≠ 0 || y % 400 = 0)

/-- Days in a month, as validated by the `datetime` constructor. -/
def daysInMonth (y m : ℕ) : ℕ :=
  if m = 2 then (if isLeap y then 29 else 28)
  else if m = 4 ∨ m = 6 ∨ m = 9 ∨ m = 11 then 30
  else 31

/-- The `datetime(year, month, day)` constructor: `none` models the `ValueError` raised on an
out-of-range component. -/
def mkDate (y m d : ℕ) : Option MDate :=
  if 1 ≤ y ∧ y ≤ 9999 ∧ 1 ≤ m ∧ m ≤ 12 ∧ 1 ≤ d ∧ d ≤ daysInMonth y m then
    some ⟨y, m, d⟩
  else none

/-- Chronological order on valid dates (lexicographic on year, month, day),
i.e. `datetime.__le__`. -/
def dateLe (a b : MDate) : Bool :=
  a.year < b.year ||
  (a.year = b.year && (a.month < b.month ||
    (a.month = b.month && a.day ≤ b.day)))

/-- Python `strptime(s, "%Y-%m-%d")` / `"%Y/%m/%d"` restricted to the canonical
separated form: three nonempty digit groups, year ≤ 4 digits, month and day
≤ 2 digits, in-range. -/
def parseSeparatedDate (sep : Char) (s : String) : Option MDate :=
  match (s.data.splitOn sep).map parseNatDigits with
  | [some y, some m, some d] =>
    if (s.data.splitOn sep).all (fun g => g.length ≤ 4) ∧
       ((s.data.splitOn sep).drop 1).all (fun g => g.length ≤ 2) then
      mkDate y m d
    else none
  | _ => none

/-- Python `strptime(s, "%Y%m%d")` restricted to the canonical 8-digit form. -/
def parseCompactDate (s : String) : Option MDate :=
  if s.data.length = 8 ∧ s.data.all Char.isDigit then
    mkDate (digitsToNat (s.data.take 4)) (digitsToNat ((s.data.drop 4).take 2))
      (digitsToNat (s.data.drop 6))
  else none

/-- The date-parsing loop inside `filter_by_date_range` of `price_query.py`:
a string of exactly 7 characters is taken as a Minguo compact date — leading
3-digit year plus the era offset 1911, then two digit pairs for month and
day; otherwise the three `strptime` formats are tried in order.  `none`
models "all formats raised `ValueError`" (the row is then skipped). -/
def parseTransactionDate (s : String) : Option MDate :=
  if s.data.length = 7 then
    match parseNatDigits (s.data.take 3), parseNatDigits ((s.data.drop 3).take 2),
        parseNatDigits (s.data.drop 5) with
    | some y, some m, some d => mkDate (y + 1911) m d
    | _, _, _ => none
  else
    (parseSeparatedDate '-' s).orElse fun _ =>
      (parseSeparatedDate '/' s).orElse fun _ => parseCompactDate s

/-- The function `filter_by_date_range` of `price_query.py`.  The code computes
`cutoff = now − years*365 days`; we pass the resulting cutoff date directly
(the cutoff's time of day only matters for rows dated exactly on the cutoff
day, which the comparison below keeps, matching a midnight `now`).  A row
with an empty or unparseable date string is dropped. -/
def filter_by_date_range (data : List Row) (cutoff : MDate) : List Row :=
  data.filter (fun row =>
    row.dateStr ≠ "" &&
    (match parseTransactionDate row.dateStr with
     | some d => dateLe cutoff d
     | none => false))

/-! ## Row normalization (`convert_to_transactions`) -/

/-- One numeric conversion of `convert_to_transactions`: strip thousands
separators; the empty string yields 0 (the `if price_str else 0` branch),
anything else is parsed (`none` = `ValueError`, skipping the row) and passed
through the unit conversion `f`. -/
def convField (s : String) (f : ℚ → ℚ) : Option ℚ :=
  let t := stripCommas s
  if t = "" then some 0 else (parseFloat? t).map f

/-- The 屋齡 conversion of `convert_to_transactions`: empty means `None`,
otherwise `int(float(s))`. -/
def ageField (s : String) : Option (Option ℤ) :=
  if s = "" then some none else (parseFloat? s).map (fun q => some (truncQ q))

/-- The per-row body of `convert_to_transactions` of `price_query.py`:
`none` models the `except` branch that skips the row.  Monetary fields are
divided by 10 000, square-meter areas multiplied by 0.3025, a unit price by
both; every numeric result is rounded to 2 decimals; the transaction date is
the first 5 characters of the raw date. -/
def convertRow (row : Row) : Option Transaction := do
  let price ← convField row.totalPrice (· / 10000)
  let building_area ← convField row.buildingAreaM2 (· * (3025 / 10000 : ℚ))
  let unit_price ← convField row.unitPriceM2 (· * (3025 / 10000 : ℚ) / 10000)
  let land_area ← convField row.landAreaM2 (· * (3025 / 10000 : ℚ))
  let building_age ← ageField row.age
  let transaction_date := if row.dateStr = "" then "" else ⟨row.dateStr.data.take 5⟩
  pure {
    district := strip row.district
    road := strip row.address
    price := round2 price
    unit_price := round2 unit_price
    building_area := round2 building_area
    land_area := round2 land_area
    building_age := building_age
    transaction_date := transaction_date
    building_type := strip row.buildingType
    floor := some (strip row.floorStr) }

/-- The function `convert_to_transactions` of `price_query.py`: rows that fail to convert
are skipped with a warning. -/
def convert_to_transactions (data : List Row) : List Transaction :=
  data.filterMap convertRow

/-- The function `get_available_districts` of `price_query.py`: the distinct nonempty
stripped district names, sorted. -/
def get_available_districts (data : List Row) : List String :=
  sortStrings (((data.map (fun row => strip row.district)).filter (· ≠ "")).dedup)

/-! ## Address parsing (`parse_address`) -/

/-- The road-type suffix characters of the fallback regex
`([^區]+?(?:路|街|巷|弄|段))`. -/
def roadSuffixChars : List Char := ['路', '街', '巷', '弄', '段']

/-- A match of the fallback regex anchored at the start of `s`: a lazy run of
non-`區` characters (at least one) followed by the first road-type suffix
character reached. -/
def roadMatchAt : List Char → Option (List Char)
  | [] => none
  | c :: rest =>
    if c = '區' then none
    else go [c] rest
where
  go (acc : List Char) : List Char → Option (List Char)
    | [] => none
    | d :: rest' =>
      if roadSuffixChars.contains d then some (acc ++ [d])
      else if d = '區' then none
      else go (acc ++ [d]) rest'

/-- Python `re.search` of the fallback regex: leftmost match wins. -/
def searchRoadName : List Char → Option (List Char)
  | [] => none
  | c :: rest =>
    match roadMatchAt (c :: rest) with
    | some m => some m
    | none => searchRoadName rest

/-- Splits a character list at its first digit run, as
`re.search(r'(\d+)(?:號|之|樓|-)?', ...)` does: the optional suffix group
never affects the captured digits or the match start.  Returns
(text before the run, the digit run, the rest). -/
def splitFirstDigitRun (l : List Char) : Option (List Char × List Char × List Char) :=
  let pre := l.takeWhile (fun c => !c.isDigit)
  let rest := l.dropWhile (fun c => !c.isDigit)
  match rest with
  | [] => none
  | _ => some (pre, rest.takeWhile Char.isDigit, rest.dropWhile Char.isDigit)

/-- The district names `parse_address` strips (all occurrences, in order). -/
def parseAddressDistricts : List String :=
  ["北屯區", "西屯區", "南屯區", "中區", "東區", "西區", "南區", "北區"]

/-- The function `parse_address` of `price_query.py`: strip city and district names, take
the first digit run as house number and the whitespace-free text before it
as the road name; with no digit run, fall back to the road-name regex. -/
def parse_address (address : String) : Option String × Option ℕ :=
  if address = "" then (none, none)
  else
    let a := strip (strReplace (strReplace address "臺中市" "") "台中市" "")
    let a := strip (parseAddressDistricts.foldl (fun s d => strReplace s d "") a)
    match splitFirstDigitRun a.data with
    | some (pre, run, _) =>
      (some ⟨(strip ⟨pre⟩).data.filter (fun c => !c.isWhitespace)⟩,
       some (digitsToNat run))
    | none =>
      match searchRoadName a.data with
      | some m => (some ⟨m⟩, none)
      | none => (none, none)

/-! ## Project grouping (`group_by_project`) -/

/-- An entry of `parsed_transactions` in `group_by_project`: a transaction
whose address yielded a (truthy) road name, with the parsed house number or
the default 0. -/
structure GItem where
  transaction : Transaction
  road_name : String
  number : ℕ
deriving DecidableEq, Repr

/-- Order used to sort a road bucket: ascending house number. -/
def itemLe (a b : GItem) : Prop := a.number ≤ b.number

instance : DecidableRel itemLe := fun a b => Nat.decLe a.number b.number

instance : IsTotal GItem itemLe := ⟨fun a b => Nat.le_total a.number b.number⟩

instance : IsTrans GItem itemLe := ⟨fun _ _ _ => Nat.le_trans⟩

/-- The house-number gap test of `group_by_project`:
`abs(curr_number - prev_number) <= proximity_threshold`. -/
def gapOk (threshold : ℕ) (prev curr : GItem) : Prop :=
  ((curr.number : ℤ) - (prev.number : ℤ)).natAbs ≤ threshold

instance : ∀ t a b, Decidable (gapOk t a b) := fun t a b =>
  Nat.decLe ((b.number : ℤ) - (a.number : ℤ)).natAbs t

/-- The chunking loop of `group_by_project` (lines walking the sorted items):
extend the current group while the gap to the immediately previous item is
within the threshold, otherwise emit it and start a new one.  `prev` is the
previous item of the walk, always the last element of `current`. -/
def chunkAux (threshold : ℕ) (current : List GItem) (prev : GItem) :
    List GItem → List (List GItem)
  | [] => [current]
  | x :: rest =>
    if ((x.number : ℤ) - (prev.number : ℤ)).natAbs ≤ threshold then
      chunkAux threshold (current ++ [x]) x rest
    else
      current :: chunkAux threshold [x] x rest

/-- Entry point of the chunking loop: the first item seeds the first group;
an empty bucket yields no groups. -/
def chunkByGap (threshold : ℕ) : List GItem → List (List GItem)
  | [] => []
  | x :: rest => chunkAux threshold [x] x rest

/-- The function `_create_project_group` of `price_query.py`: count and average over all
members; house-number range over the members with a positive parsed number,
with the `未知門牌` sentinel when there are none; each member rendered as
`#<number>` or `#未知`. -/
def create_project_group (road_name : String) (items : List GItem) : ProjectGroup :=
  let transactions := items.map (·.transaction)
  let numbers := (items.map (·.number)).filter (fun n => 0 < n)
  let transaction_count := transactions.length
  let avg_price := (transactions.map (·.price)).sum / (transaction_count : ℚ)
  let avg_unit_price := (transactions.map (·.unit_price)).sum / (transaction_count : ℚ)
  let (min_number, max_number, address_range) :=
    match numbers with
    | [] => (0, 0, "未知門牌")
    | n :: ns =>
      let mn := ns.foldl Nat.min n
      let mx := ns.foldl Nat.max n
      (mn, mx,
        if mn = mx then toString mn ++ "號"
        else toString mn ++ "-" ++ toString mx ++ "號")
  let addresses := items.map (fun item =>
    if 0 < item.number then "#" ++ toString item.number else "#未知")
  { road_name := road_name
    address_range := address_range
    min_number := min_number
    max_number := max_number
    transaction_count := transaction_count
    avg_price := round2 avg_price
    avg_unit_price := round2 avg_unit_price
    addresses := addresses
    transactions := transactions }

/-- The function `group_by_project` of `price_query.py`: parse each address, keep items
with a truthy road name (house number defaulting to 0), bucket by road name,
sort each bucket ascending by number (stably), then chunk by gap and build
one `ProjectGroup` per chunk, roads in sorted order. -/
def group_by_project (transactions : List Transaction)
    (proximity_threshold : ℕ := 100) : List ProjectGroup :=
  let parsed := transactions.filterMap (fun t =>
    match parse_address t.road with
    | (some rn, n) =>
      if rn = "" then none
      else some { transaction := t, road_name := rn, number := n.getD 0 : GItem }
    | (none, _) => none)
  let roadNames := sortStrings ((parsed.map (·.road_name)).dedup)
  roadNames.flatMap (fun rn =>
    let items := List.insertionSort itemLe (parsed.filter (fun i => i.road_name = rn))
    (chunkByGap proximity_threshold items).map (create_project_group rn))

/-! ## The query pipeline (`fetch_moi_data`, `analyze_transactions`,
`query_price`) -/

/-- The distinct `raise ValueError` sites of the query path, with the data
each message interpolates.  `noDistrictData` is the zero-rows-after-district-
filter error of `fetch_moi_data` (carrying the available-district list),
`noRecentData` its zero-rows-after-time-window error, `unrecognizedArea` the
pre-load rejection of `query_price` (with or without suggestions). -/
inductive QueryError where
  | noDistrictData (district : String) (available : List String)
  | noRecentData (district : String)
  | unrecognizedArea (area : String) (suggestions : List String)
  | unrecognizedAreaNoSuggestion (area : String)
deriving DecidableEq, Repr

/-- Python `"、".join(l)` (and `", ".join(l)` via the `sep` argument). -/
def joinWith (sep : String) : List String → String
  | [] => ""
  | [s] => s
  | s :: rest => s ++ sep ++ joinWith sep rest

/-- The exact `ValueError` message text raised at each site (the f-strings
of `fetch_moi_data` and `query_price`). -/
def errorMessage : QueryError → String
  | .noDistrictData district available =>
    "查無「" ++ district ++ "」的交易記錄。\n\n" ++
    "CSV 檔案中可用的地區有：" ++ joinWith "、" available ++ "\n" ++
    "請確認地區名稱是否正確。"
  | .noRecentData district =>
    "「" ++ district ++ "」有交易記錄，但過去 5 年內沒有符合條件的數據。\n" ++
    "請嘗試查詢其他地區或聯繫管理員更新資料。"
  | .unrecognizedArea area suggestions =>
    "無法識別地區「" ++ area ++ "」，您是否要查詢：" ++
    joinWith ", " suggestions ++ "？"
  | .unrecognizedAreaNoSuggestion area =>
    "無法識別地區「" ++ area ++ "」，請輸入台中市的行政區或路名"

/-- The function `fetch_moi_data` of `price_query.py`, given the loaded CSV rows and the
5-year cutoff date (the code derives the cutoff from `datetime.now()`):
district filter, emptiness check with the available-district payload, time
window, emptiness check, conversion. -/
def fetch_moi_data (allData : List Row) (cutoff : MDate) (district : String)
    (road : Option String) : Except QueryError (List Transaction) :=
  if filter_by_district_and_road allData district road = [] then
    .error (.noDistrictData district (get_available_districts allData))
  else if filter_by_date_range (filter_by_district_and_road allData district road)
      cutoff = [] then
    .error (.noRecentData district)
  else
    .ok (convert_to_transactions
      (filter_by_date_range (filter_by_district_and_road allData district road) cutoff))

instance {ε α : Type} [DecidableEq ε] [DecidableEq α] : DecidableEq (Except ε α) :=
  fun a b =>
    match a, b with
    | .error e, .error e' =>
      if h : e = e' then isTrue (by rw [h])
      else isFalse (fun hc => h (Except.error.inj hc))
    | .ok x, .ok y =>
      if h : x = y then isTrue (by rw [h])
      else isFalse (fun hc => h (Except.ok.inj hc))
    | .error _, .ok _ => isFalse (fun hc => by cases hc)
    | .ok _, .error _ => isFalse (fun hc => by cases hc)

/-- The `query_period` computation of `analyze_transactions`: sort the
transaction-date codes and join the first and last with `" ~ "` (the
`"N/A"` branch is unreachable because the caller raises on an empty list). -/
def queryPeriod (transactions : List Transaction) : String :=
  match transactions with
  | [] => "N/A"
  | _ =>
    let dates := sortStrings (transactions.map (·.transaction_date))
    dates.headD "" ++ " ~ " ++ dates.getLastD ""

/-- The transactions the query pipeline hands to `analyze_transactions`:
district-filtered, then windowed, then converted. -/
def windowedTransactions (allData : List Row) (cutoff : MDate) (district : String)
    (road : Option String) : List Transaction :=
  convert_to_transactions
    (filter_by_date_range (filter_by_district_and_road allData district road) cutoff)

/-- Stated from the spec's words for comparison (spec 4.9): the query-period
label `"<earliest> ~ <latest>"` computed over the full **pre-window** sorted
period codes of the district-filtered transactions. -/
def specPreWindowPeriodLabel (allData : List Row) (district : String)
    (road : Option String) : String :=
  let periods := sortStrings
    ((convert_to_transactions (filter_by_district_and_road allData district road)).map
      (·.transaction_date))
  periods.headD "" ++ " ~ " ++ periods.getLastD ""

/-- Outcome of the pre-fetch stage of `query_price`: either one of the
`ValueError`s raised before any data is loaded, or the `(district, road)`
pair passed on to `fetch_moi_data` (which is what loads the data). -/
inductive PreQueryResult where
  | err (e : QueryError)
  | proceed (district : String) (road : Option String)
deriving DecidableEq, Repr

/-- The area-recognition front of `query_price` of `price_query.py` (cache
disabled): normalize the area; an unrecognized district raises before any
data is loaded, with suggestions when any exist. -/
def query_price_front (area : String) : PreQueryResult :=
  match normalize_area area with
  | (some district, road) => .proceed district road
  | (none, _) =>
    match suggest_similar_areas area with
    | [] => .err (.unrecognizedAreaNoSuggestion area)
    | s :: rest => .err (.unrecognizedArea area (s :: rest))

/-- True exactly on the pre-load rejection that carries suggestions. -/
def isUserInputErrorWithSuggestions : PreQueryResult → Bool
  | .err (.unrecognizedArea _ (_ :: _)) => true
  | _ => false

/-! ## `official_data_downloader.py`: cache validity and backup retention -/

/-- The constant `CACHE_VALIDITY_DAYS` of `official_data_downloader.py`. -/
def CACHE_VALIDITY_DAYS : ℤ := 7

/-- The method `VersionInfo.is_cache_valid`: timestamps in seconds; `timedelta.days` is
the floor of the elapsed seconds over 86 400.  `lastDownload = none` models a
missing or unparseable `last_download` entry (both return `False`). -/
def is_cache_valid (lastDownload : Option ℤ) (now : ℤ) : Bool :=
  match lastDownload with
  | none => false
  | some last => (now - last).fdiv 86400 < CACHE_VALIDITY_DAYS

/-- One run of `OfficialDataDownloader.backup_old_data` when the output
artifact exists, acting on the set of backup file names: the new
timestamp-suffixed copy joins the directory, the glob is sorted by name, and
everything except the newest 10 names is deleted. -/
def backup_old_data (backups : List String) (newName : String) : List String :=
  let sortedBackups := sortStrings (backups ++ [newName])
  if 10 < sortedBackups.length then
    sortedBackups.drop (sortedBackups.length - 10)
  else sortedBackups

/-! ## Helper lemmas -/

theorem parseNatDigits_eq {l : List Char} (h1 : l ≠ []) (h2 : l.all Char.isDigit = true) :
    parseNatDigits l = some (digitsToNat l) := by
  simp [parseNatDigits, h1, h2]

theorem headD_mem {α : Type} {l : List α} (d : α) (h : l ≠ []) : l.headD d ∈ l := by
  cases l with
  | nil => exact absurd rfl h
  | cons a t => simp

theorem getLastD_mem {α : Type} : ∀ (l : List α) (d : α), l ≠ [] → l.getLastD d ∈ l
  | [], _, h => absurd rfl h
  | [a], _, _ => by simp
  | a :: b :: t, d, _ => by
    rw [List.getLastD_cons]
    exact List.mem_cons_of_mem a (getLastD_mem (b :: t) a (by simp))

theorem sorted_headD_le {α : Type} [Preorder α] {l : List α} (d : α)
    (hs : List.Sorted (· ≤ ·) l) {x : α} (hx : x ∈ l) : l.headD d ≤ x := by
  cases l with
  | nil => cases hx
  | cons a t =>
    rcases List.mem_cons.mp hx with rfl | hx'
    · exact le_refl x
    · exact List.rel_of_sorted_cons hs x hx'

theorem sorted_le_getLastD {α : Type} [Preorder α] :
    ∀ {l : List α} (d : α), List.Sorted (· ≤ ·) l → ∀ {x : α}, x ∈ l → x ≤ l.getLastD d
  | [], _, _, _, hx => absurd hx (List.not_mem_nil _)
  | [a], _, _, _, hx => by
    rcases List.mem_cons.mp hx with rfl | hx'
    · simp
    · cases hx'
  | a :: b :: t, d, hs, x, hx => by
    rw [List.getLastD_cons]
    rcases List.mem_cons.mp hx with rfl | hx'
    · exact le_trans (List.rel_of_sorted_cons hs b (by simp))
        (sorted_le_getLastD b hs.of_cons (by simp))
    · exact sorted_le_getLastD b hs.of_cons hx'

theorem foldl_min_le_init : ∀ (ns : List ℕ) (n : ℕ), ns.foldl Nat.min n ≤ n
  | [], n => le_refl n
  | a :: t, n => by
    rw [List.foldl_cons]
    exact le_trans (foldl_min_le_init t (Nat.min n a)) (Nat.min_le_left n a)

theorem foldl_min_le : ∀ (ns : List ℕ) (n m : ℕ), m ∈ ns → ns.foldl Nat.min n ≤ m
  | a :: t, n, m, hm => by
    rw [List.foldl_cons]
    rcases List.mem_cons.mp hm with rfl | hm'
    · exact le_trans (foldl_min_le_init t _) (Nat.min_le_right n m)
    · exact foldl_min_le t _ m hm'

theorem foldl_min_mem : ∀ (ns : List ℕ) (n : ℕ),
    ns.foldl Nat.min n = n ∨ ns.foldl Nat.min n ∈ ns
  | [], _ => Or.inl rfl
  | a :: t, n => by
    rw [List.foldl_cons]
    rcases foldl_min_mem t (Nat.min n a) with h | h
    · by_cases hna : n ≤ a
      · have hm : Nat.min n a = n :=
          Nat.le_antisymm (Nat.min_le_left n a) (Nat.le_min.mpr ⟨le_refl n, hna⟩)
        exact Or.inl (by rw [h, hm])
      · have hm : Nat.min n a = a :=
          Nat.le_antisymm (Nat.min_le_right n a)
            (Nat.le_min.mpr ⟨Nat.le_of_lt (Nat.lt_of_not_le hna), le_refl a⟩)
        refine Or.inr ?_
        rw [h, hm]; simp
    · exact Or.inr (List.mem_cons_of_mem a h)

theorem le_foldl_max_init : ∀ (ns : List ℕ) (n : ℕ), n ≤ ns.foldl Nat.max n
  | [], n => le_refl n
  | a :: t, n => by
    rw [List.foldl_cons]
    exact le_trans (Nat.le_max_left n a) (le_foldl_max_init t (Nat.max n a))

theorem le_foldl_max : ∀ (ns : List ℕ) (n m : ℕ), m ∈ ns → m ≤ ns.foldl Nat.max n
  | a :: t, n, m, hm => by
    rw [List.foldl_cons]
    rcases List.mem_cons.mp hm with rfl | hm'
    · exact le_trans (Nat.le_max_right n m) (le_foldl_max_init t _)
    · exact le_foldl_max t _ m hm'

theorem foldl_max_mem : ∀ (ns : List ℕ) (n : ℕ),
    ns.foldl Nat.max n = n ∨ ns.foldl Nat.max n ∈ ns
  | [], _ => Or.inl rfl
  | a :: t, n => by
    rw [List.foldl_cons]
    rcases foldl_max_mem t (Nat.max n a) with h | h
    · by_cases hna : n ≤ a
      · have hm : Nat.max n a = a :=
          Nat.le_antisymm (Nat.max_le.mpr ⟨hna, le_refl a⟩) (Nat.le_max_right n a)
        refine Or.inr ?_
        rw [h, hm]; simp
      · have hm : Nat.max n a = n :=
          Nat.le_antisymm (Nat.max_le.mpr ⟨le_refl n, Nat.le_of_lt (Nat.lt_of_not_le hna)⟩)
            (Nat.le_max_left n a)
        exact Or.inl (by rw [h, hm])
    · exact Or.inr (List.mem_cons_of_mem a h)

theorem ratFloor_eq_intFloor (q : ℚ) : q.floor = ⌊q⌋ := by
  rw [Rat.floor_def', Rat.floor_def]

theorem roundHalfEven_nonneg {q : ℚ} (h : 0 ≤ q) : 0 ≤ roundHalfEven q := by
  have hf : (0 : ℤ) ≤ q.floor := by
    rw [ratFloor_eq_intFloor]
    exact Int.floor_nonneg.mpr h
  unfold roundHalfEven
  dsimp only
  split_ifs <;> omega

theorem round2_nonneg {q : ℚ} (h : 0 ≤ q) : 0 ≤ round2 q := by
  have h100 : (0 : ℚ) ≤ q * 100 := by positivity
  have hr := roundHalfEven_nonneg h100
  unfold round2
  have : (0 : ℚ) ≤ (roundHalfEven (q * 100) : ℚ) := Int.cast_nonneg.mpr hr
  positivity

theorem truncQ_nonneg {q : ℚ} (h : 0 ≤ q) : 0 ≤ truncQ q := by
  unfold truncQ
  rw [if_pos h, ratFloor_eq_intFloor]
  exact Int.floor_nonneg.mpr h

/-- The boundary relation between two consecutive emitted groups: the gap
from the last member of the first to the first member of the second exceeds
the threshold. -/
def boundaryGap (threshold : ℕ) (l₁ l₂ : List GItem) : Prop :=
  ∀ a ∈ l₁.getLast?, ∀ b ∈ l₂.head?, ¬ gapOk threshold a b

theorem chunkAux_join (th : ℕ) : ∀ (rest current : List GItem) (prev : GItem),
    (chunkAux th current prev rest).flatten = current ++ rest
  | [], current, prev => by simp [chunkAux]
  | x :: rest, current, prev => by
    rw [chunkAux]
    split
    · rw [chunkAux_join th rest (current ++ [x]) x]; simp
    · rw [List.flatten_cons, chunkAux_join th rest [x] x]
      simp

theorem chunkAux_ne_nil (th : ℕ) : ∀ (rest current : List GItem) (prev : GItem),
    current ≠ [] → ∀ l ∈ chunkAux th current prev rest, l ≠ []
  | [], current, prev, hc => by
    intro l hl
    rw [chunkAux] at hl
    rcases List.mem_singleton.mp hl with rfl
    exact hc
  | x :: rest, current, prev, hc => by
    intro l hl
    rw [chunkAux] at hl
    split at hl
    · exact chunkAux_ne_nil th rest (current ++ [x]) x (by simp) l hl
    · rcases List.mem_cons.mp hl with rfl | hl'
      · exact hc
      · exact chunkAux_ne_nil th rest [x] x (by simp) l hl'

theorem chunkAux_first (th : ℕ) : ∀ (rest current : List GItem) (prev : GItem),
    ∃ ext gs, chunkAux th current prev rest = (current ++ ext) :: gs
  | [], current, prev => ⟨[], [], by simp [chunkAux]⟩
  | x :: rest, current, prev => by
    rw [chunkAux]
    split
    · obtain ⟨ext, gs, h⟩ := chunkAux_first th rest (current ++ [x]) x
      exact ⟨x :: ext, gs, by rw [h]; simp⟩
    · exact ⟨[], chunkAux th [x] x rest, by simp⟩

theorem chunkAux_chain_within (th : ℕ) : ∀ (rest current : List GItem) (prev : GItem),
    current.getLast? = some prev → current.Chain' (gapOk th) →
    ∀ l ∈ chunkAux th current prev rest, l.Chain' (gapOk th)
  | [], current, prev, _, hchain => by
    intro l hl
    rw [chunkAux] at hl
    rcases List.mem_singleton.mp hl with rfl
    exact hchain
  | x :: rest, current, prev, hlast, hchain => by
    intro l hl
    rw [chunkAux] at hl
    split at hl
    · rename_i hgap
      refine chunkAux_chain_within th rest (current ++ [x]) x
        (List.getLast?_concat _) ?_ l hl
      refine List.chain'_append.mpr ⟨hchain, List.chain'_singleton x, ?_⟩
      intro a ha b hb
      rw [hlast] at ha
      rcases Option.mem_some_iff.mp ha with rfl
      rcases Option.mem_some_iff.mp hb with rfl
      exact hgap
    · rcases List.mem_cons.mp hl with rfl | hl'
      · exact hchain
      · exact chunkAux_chain_within th rest [x] x rfl (List.chain'_singleton x) l hl'

theorem chunkAux_boundary (th : ℕ) : ∀ (rest current : List GItem) (prev : GItem),
    current.getLast? = some prev →
    (chunkAux th current prev rest).Chain' (boundaryGap th)
  | [], current, prev, _ => by
    rw [chunkAux]
    exact List.chain'_singleton current
  | x :: rest, current, prev, hlast => by
    rw [chunkAux]
    split
    · exact chunkAux_boundary th rest (current ++ [x]) x (List.getLast?_concat _)
    · rename_i hgap
      rw [List.chain'_cons']
      refine ⟨?_, chunkAux_boundary th rest [x] x rfl⟩
      intro hd hhd a ha b hb
      obtain ⟨ext, gs, heq⟩ := chunkAux_first th rest [x] x
      rw [heq] at hhd
      rcases Option.mem_some_iff.mp hhd with rfl
      rw [hlast] at ha
      rcases Option.mem_some_iff.mp ha with rfl
      rcases Option.mem_some_iff.mp hb with rfl
      exact hgap

/-- Decomposition of a successful `convertRow`: the five fallible numeric
conversions succeeded and the transaction is the record they build. -/
theorem convertRow_eq {row : Row} {tx : Transaction} (h : convertRow row = some tx) :
    ∃ p ba up la ag,
      convField row.totalPrice (· / 10000) = some p ∧
      convField row.buildingAreaM2 (· * (3025 / 10000 : ℚ)) = some ba ∧
      convField row.unitPriceM2 (· * (3025 / 10000 : ℚ) / 10000) = some up ∧
      convField row.landAreaM2 (· * (3025 / 10000 : ℚ)) = some la ∧
      ageField row.age = some ag ∧
      tx = { district := strip row.district
             road := strip row.address
             price := round2 p
             unit_price := round2 up
             building_area := round2 ba
             land_area := round2 la
             building_age := ag
             transaction_date := if row.dateStr = "" then "" else ⟨row.dateStr.data.take 5⟩
             building_type := strip row.buildingType
             floor := some (strip row.floorStr) } := by
  simp only [convertRow, Option.bind_eq_bind, Option.bind_eq_some, Option.pure_def,
    Option.some.injEq] at h
  obtain ⟨p, hp, ba, hba, up, hup, la, hla, ag, hag, htx⟩ := h
  exact ⟨p, ba, up, la, ag, hp, hba, hup, hla, hag, htx.symm⟩

/-- The empty string is not a float literal (`float("")` raises). -/
theorem parseFloat?_empty : parseFloat? "" = none := rfl

/-- A field whose raw text parses to `q` converts to `f q`. -/
theorem convField_of_parse {s : String} {q : ℚ} (f : ℚ → ℚ)
    (h : parseFloat? (stripCommas s) = some q) : convField s f = some (f q) := by
  unfold convField
  by_cases he : stripCommas s = ""
  · rw [he] at h
    rw [parseFloat?_empty] at h
    cases h
  · rw [if_neg he, h, Option.map_some']

/-- A successful field conversion is either the empty-string default 0 or
`f` of a parsed value. -/
theorem convField_cases {s : String} {f : ℚ → ℚ} {v : ℚ}
    (h : convField s f = some v) :
    v = 0 ∨ ∃ q, parseFloat? (stripCommas s) = some q ∧ v = f q := by
  unfold convField at h
  by_cases he : stripCommas s = ""
  · rw [if_pos he] at h
    exact Or.inl (Option.some_injective _ h).symm
  · rw [if_neg he] at h
    rcases Option.map_eq_some'.mp h with ⟨q, hq, hv⟩
    exact Or.inr ⟨q, hq, hv.symm⟩

/-- A successful age conversion is either the empty-string `None` or the
truncation of a parsed value. -/
theorem ageField_cases {s : String} {ag : Option ℤ} (h : ageField s = some ag) :
    ag = none ∨ ∃ q, parseFloat? s = some q ∧ ag = some (truncQ q) := by
  unfold ageField at h
  by_cases he : s = ""
  · rw [if_pos he] at h
    exact Or.inl (Option.some_injective _ h).symm
  · rw [if_neg he] at h
    rcases Option.map_eq_some'.mp h with ⟨q, hq, hv⟩
    exact Or.inr ⟨q, hq, hv.symm⟩

/-- The zero-rows-after-district-filter message always differs from the
zero-rows-after-time-window message (they begin with different characters),
whatever data they interpolate. -/
theorem errorMessage_distinct (d : String) (avail : List String) (d' : String) :
    errorMessage (.noDistrictData d avail) ≠ errorMessage (.noRecentData d') := by
  intro h
  have h2 := congrArg String.data h
  simp only [errorMessage, String.data_append] at h2
  have h3 := congrArg List.head? h2
  simp at h3

theorem sortStrings_perm (l : List String) : List.Perm (sortStrings l) l :=
  List.perm_insertionSort pyLe l

theorem sortStrings_sorted (l : List String) : List.Sorted pyLe (sortStrings l) :=
  List.sorted_insertionSort pyLe l

theorem sorted_headD_pyLe {l : List String} (d : String)
    (hs : List.Sorted pyLe l) {x : String} (hx : x ∈ l) : pyLe (l.headD d) x := by
  cases l with
  | nil => cases hx
  | cons a t =>
    rcases List.mem_cons.mp hx with rfl | hx'
    · exact pyLe_refl x
    · exact List.rel_of_sorted_cons hs x hx'

theorem sorted_le_getLastD_pyLe :
    ∀ {l : List String} (d : String), List.Sorted pyLe l →
      ∀ {x : String}, x ∈ l → pyLe x (l.getLastD d)
  | [], _, _, _, hx => absurd hx (List.not_mem_nil _)
  | [a], _, _, x, hx => by
    rcases List.mem_cons.mp hx with rfl | hx'
    · simpa using pyLe_refl x
    · cases hx'
  | a :: b :: t, d, hs, x, hx => by
    rw [List.getLastD_cons]
    rcases List.mem_cons.mp hx with rfl | hx'
    · exact pyLe_trans (List.rel_of_sorted_cons hs b (by simp))
        (sorted_le_getLastD_pyLe b hs.of_cons (by simp))
    · exact sorted_le_getLastD_pyLe b hs.of_cons hx'

/-! ## Concrete inputs for witnesses and counterexamples -/

/-- A transaction at the given address with zeroed numeric fields, for the
grouping examples. -/
def demoTx (road : String) : Transaction :=
  { district := "北屯區", road := road, price := 0, unit_price := 0,
    building_area := 0, land_area := 0, building_age := none,
    transaction_date := "11301", building_type := "", floor := some "" }

/-- The spec's grouping example: road 文心路, house numbers 10, 50, 90, 250,
260. -/
def demoRoadTxs : List Transaction :=
  [demoTx "文心路10號", demoTx "文心路50號", demoTx "文心路90號",
   demoTx "文心路250號", demoTx "文心路260號"]

/-- A 北屯區 row dated Minguo 090-01-01 (2001-01-01), outside a 5-year
window ending in the 2020s. -/
def demoOldRow : Row :=
  { district := "北屯區", address := "臺中市北屯區文心路100號", dateStr := "0900101" }

/-- A 北屯區 row dated Minguo 113-01-01 (2024-01-01). -/
def demoNewRow : Row :=
  { district := "北屯區", address := "臺中市北屯區文心路200號", dateStr := "1130101" }

/-- A two-row data set whose district filter keeps both rows but whose
5-year window keeps only the 2024 one. -/
def demoData : List Row := [demoOldRow, demoNewRow]

/-- The 5-year cutoff `now − 5×365 days` as computed on 2025-10-14. -/
def demoCutoff : MDate := ⟨2020, 10, 15⟩

/-! ## Claim theorems -/

/-- C3: for every raw date string of exactly 7 digits, the date-window
filter's parser takes the Minguo branch: the leading 3-digit year plus the
era offset 1911, then the next two digit pairs as month and day; in
particular `"1120101"` is read as 2023-01-01. -/
theorem seven_digit_dates_are_minguo :
    (∀ s : String, s.data.length = 7 → s.data.all Char.isDigit = true →
      parseTransactionDate s =
        mkDate (digitsToNat (s.data.take 3) + 1911)
          (digitsToNat ((s.data.drop 3).take 2)) (digitsToNat (s.data.drop 5))) ∧
    parseTransactionDate "1120101" = some ⟨2023, 1, 1⟩ := by
  constructor
  · intro s h7 hdig
    have hall : ∀ c ∈ s.data, c.isDigit = true := List.all_eq_true.mp hdig
    have h1 : s.data.take 3 ≠ [] := by
      intro hc
      have := congrArg List.length hc
      simp [h7] at this
    have h2 : (s.data.drop 3).take 2 ≠ [] := by
      intro hc
      have := congrArg List.length hc
      simp [h7] at this
    have h3 : s.data.drop 5 ≠ [] := by
      intro hc
      have := congrArg List.length hc
      simp [h7] at this
    have ha1 : (s.data.take 3).all Char.isDigit = true :=
      List.all_eq_true.mpr fun c hc => hall c (List.take_subset _ _ hc)
    have ha2 : ((s.data.drop 3).take 2).all Char.isDigit = true :=
      List.all_eq_true.mpr fun c hc =>
        hall c (List.drop_subset _ _ (List.take_subset _ _ hc))
    have ha3 : (s.data.drop 5).all Char.isDigit = true :=
      List.all_eq_true.mpr fun c hc => hall c (List.drop_subset _ _ hc)
    simp only [parseTransactionDate, if_pos h7, parseNatDigits_eq h1 ha1,
      parseNatDigits_eq h2 ha2, parseNatDigits_eq h3 ha3]
  · decide

/-- Witness for C3 at the concrete date string `"1120101"`. -/
theorem seven_digit_dates_are_minguo_witness :
    parseTransactionDate "1120101" =
      mkDate (digitsToNat ("1120101".data.take 3) + 1911)
        (digitsToNat (("1120101".data.drop 3).take 2))
        (digitsToNat ("1120101".data.drop 5)) :=
  seven_digit_dates_are_minguo.1 "1120101" (by decide) (by decide)

/-- C2: grouping sorts a road's members ascending by house number and walks
the sorted sequence, starting a new group exactly when the gap to the
immediately previous number exceeds the threshold: the emitted groups
flatten back to the sorted sequence, are nonempty, have all consecutive
in-group gaps within the threshold, and have over-threshold gaps at every
group boundary; in particular house numbers [10, 50, 90, 250, 260] with
threshold 100 yield exactly the two groups {10,50,90} and {250,260}. -/
theorem grouping_sorts_then_splits_on_gap :
    (∀ (th : ℕ) (items : List GItem),
      List.Sorted itemLe (List.insertionSort itemLe items) ∧
      List.Perm (List.insertionSort itemLe items) items ∧
      (chunkByGap th (List.insertionSort itemLe items)).flatten =
        List.insertionSort itemLe items ∧
      (∀ l ∈ chunkByGap th (List.insertionSort itemLe items), l ≠ []) ∧
      (∀ l ∈ chunkByGap th (List.insertionSort itemLe items), l.Chain' (gapOk th)) ∧
      (chunkByGap th (List.insertionSort itemLe items)).Chain' (boundaryGap th)) ∧
    (group_by_project demoRoadTxs 100).map ProjectGroup.addresses =
      [["#10", "#50", "#90"], ["#250", "#260"]] ∧
    (group_by_project demoRoadTxs 100).length = 2 := by
  refine ⟨?_, by decide, by decide⟩
  intro th items
  refine ⟨List.sorted_insertionSort itemLe items,
    List.perm_insertionSort itemLe items, ?_, ?_, ?_, ?_⟩
  · rcases hseq : List.insertionSort itemLe items with _ | ⟨a, t⟩
    · simp [chunkByGap]
    · simp only [chunkByGap]
      rw [chunkAux_join]
      simp
  · rcases hseq : List.insertionSort itemLe items with _ | ⟨a, t⟩
    · simp [chunkByGap]
    · simp only [chunkByGap]
      exact chunkAux_ne_nil th t [a] a (by simp)
  · rcases hseq : List.insertionSort itemLe items with _ | ⟨a, t⟩
    · simp [chunkByGap]
    · simp only [chunkByGap]
      exact chunkAux_chain_within th t [a] a rfl (List.chain'_singleton a)
  · rcases hseq : List.insertionSort itemLe items with _ | ⟨a, t⟩
    · simp [chunkByGap]
    · simp only [chunkByGap]
      exact chunkAux_boundary th t [a] a rfl

/-- Witness for C2: the chunking of the sorted demo bucket flattens back to
it, and the concrete first group is nonempty. -/
theorem grouping_sorts_then_splits_on_gap_witness :
    (chunkByGap 100 (List.insertionSort itemLe
        [⟨demoTx "文心路10號", "文心路", 10⟩, ⟨demoTx "文心路250號", "文心路", 250⟩])).flatten =
      List.insertionSort itemLe
        [⟨demoTx "文心路10號", "文心路", 10⟩, ⟨demoTx "文心路250號", "文心路", 250⟩] ∧
    [(⟨demoTx "文心路10號", "文心路", 10⟩ : GItem)] ≠ [] :=
  ⟨(grouping_sorts_then_splits_on_gap.1 100
      [⟨demoTx "文心路10號", "文心路", 10⟩, ⟨demoTx "文心路250號", "文心路", 250⟩]).2.2.1,
   (grouping_sorts_then_splits_on_gap.1 100
      [⟨demoTx "文心路10號", "文心路", 10⟩, ⟨demoTx "文心路250號", "文心路", 250⟩]).2.2.2.1
     [⟨demoTx "文心路10號", "文心路", 10⟩] (by decide)⟩

/-- C9: in every emitted project group, the count and both means range over
all members, while min/max house number (hence the range label) are computed
only from members whose number parsed positive; a group with no positive
number gets min = max = 0 and the sentinel label `未知門牌`, and unknown
members render as `#未知`. -/
theorem project_group_stats_and_range :
    ∀ (road : String) (items : List GItem),
      (create_project_group road items).transaction_count = items.length ∧
      (create_project_group road items).avg_price =
        round2 ((items.map (fun i => i.transaction.price)).sum / (items.length : ℚ)) ∧
      (create_project_group road items).avg_unit_price =
        round2 ((items.map (fun i => i.transaction.unit_price)).sum / (items.length : ℚ)) ∧
      (create_project_group road items).addresses = items.map (fun i =>
        if 0 < i.number then "#" ++ toString i.number else "#未知") ∧
      ((items.map (fun i => i.number)).filter (fun n => 0 < n) = [] →
        (create_project_group road items).min_number = 0 ∧
        (create_project_group road items).max_number = 0 ∧
        (create_project_group road items).address_range = "未知門牌") ∧
      (∀ n ∈ (items.map (fun i => i.number)).filter (fun n => 0 < n),
        (create_project_group road items).min_number ≤ n ∧
        n ≤ (create_project_group road items).max_number) ∧
      ((items.map (fun i => i.number)).filter (fun n => 0 < n) ≠ [] →
        (create_project_group road items).min_number ∈
          (items.map (fun i => i.number)).filter (fun n => 0 < n) ∧
        (create_project_group road items).max_number ∈
          (items.map (fun i => i.number)).filter (fun n => 0 < n)) := by
  intro road items
  rcases hpos : (items.map (fun i => i.number)).filter (fun n => 0 < n) with _ | ⟨n, ns⟩
  · refine ⟨by simp [create_project_group, hpos], ?_, ?_,
      by simp [create_project_group, hpos], ?_, ?_, ?_⟩
    · simp [create_project_group, hpos, List.map_map, Function.comp_def]
    · simp [create_project_group, hpos, List.map_map, Function.comp_def]
    · intro _
      refine ⟨?_, ?_, ?_⟩ <;> simp [create_project_group, hpos]
    · intro m hm
      rw [hpos] at hm
      cases hm
    · intro hne
      exact absurd hpos hne
  · refine ⟨by simp [create_project_group, hpos], ?_, ?_,
      by simp [create_project_group, hpos], ?_, ?_, ?_⟩
    · simp [create_project_group, hpos, List.map_map, Function.comp_def]
    · simp [create_project_group, hpos, List.map_map, Function.comp_def]
    · intro hc
      rw [hpos] at hc
      cases hc
    · have hmin : (create_project_group road items).min_number = ns.foldl Nat.min n := by
        simp [create_project_group, hpos]
      have hmax : (create_project_group road items).max_number = ns.foldl Nat.max n := by
        simp [create_project_group, hpos]
      intro m hm
      rw [hpos] at hm
      rw [hmin, hmax]
      rcases List.mem_cons.mp hm with rfl | hm'
      · exact ⟨foldl_min_le_init ns m, le_foldl_max_init ns m⟩
      · exact ⟨foldl_min_le ns n m hm', le_foldl_max ns n m hm'⟩
    · have hmin : (create_project_group road items).min_number = ns.foldl Nat.min n := by
        simp [create_project_group, hpos]
      have hmax : (create_project_group road items).max_number = ns.foldl Nat.max n := by
        simp [create_project_group, hpos]
      intro _
      rw [hpos, hmin, hmax]
      constructor
      · rcases foldl_min_mem ns n with h | h
        · rw [h]; simp
        · exact List.mem_cons_of_mem n h
      · rcases foldl_max_mem ns n with h | h
        · rw [h]; simp
        · exact List.mem_cons_of_mem n h

/-- Witness for C9 at a concrete two-member group with one unknown number:
the sentinel-free range bounds hold for the positive member, and a group of
only-unknown members gets the sentinel label. -/
theorem project_group_stats_and_range_witness :
    ((create_project_group "文心路" [⟨demoTx "文心路100號", "文心路", 100⟩,
        ⟨demoTx "文心路", "文心路", 0⟩]).min_number ≤ 100 ∧
      100 ≤ (create_project_group "文心路" [⟨demoTx "文心路100號", "文心路", 100⟩,
        ⟨demoTx "文心路", "文心路", 0⟩]).max_number) ∧
    (create_project_group "文心路" [⟨demoTx "文心路", "文心路", 0⟩]).address_range =
      "未知門牌" :=
  ⟨(project_group_stats_and_range "文心路" [⟨demoTx "文心路100號", "文心路", 100⟩,
      ⟨demoTx "文心路", "文心路", 0⟩]).2.2.2.2.2.1 100 (by decide),
   ((project_group_stats_and_range "文心路"
      [⟨demoTx "文心路", "文心路", 0⟩]).2.2.2.2.1 (by decide)).2.2⟩

theorem roundHalfEven_intCast (n : ℤ) : roundHalfEven ((n : ℤ) : ℚ) = n := by
  unfold roundHalfEven
  dsimp only
  have hf : ((n : ℤ) : ℚ).floor = n := by
    rw [ratFloor_eq_intFloor, Int.floor_intCast]
  rw [hf, sub_self]
  norm_num

/-- Python `round(x, 2)` of a rational whose hundredfold is the integer `n`. -/
theorem round2_eq_intCast_div (q : ℚ) (n : ℤ) (h : q * 100 = (n : ℚ)) :
    round2 q = (n : ℚ) / 100 := by
  rw [round2, h, roundHalfEven_intCast]

theorem round2_million_div_10000 : round2 ((1000000 : ℚ) / 10000) = 100 := by
  rw [round2_eq_intCast_div _ 10000 (by norm_num)]
  norm_num

theorem round2_hundred_times_ratio : round2 ((100 : ℚ) * (3025 / 10000 : ℚ)) = 121 / 4 := by
  rw [round2_eq_intCast_div _ 3025 (by norm_num)]
  norm_num

theorem round2_zero : round2 (0 : ℚ) = 0 := by
  rw [round2_eq_intCast_div 0 0 (by norm_num)]
  norm_num

theorem round2_neg_example : round2 ((-100 : ℚ) / 10000) = -(1 / 100) := by
  rw [round2_eq_intCast_div _ (-1) (by norm_num)]
  norm_num

/-- The spec's normalizer example row: raw price `"1,000,000"`, raw
building area `"100"`. -/
def demoPriceRow : Row := { totalPrice := "1,000,000", buildingAreaM2 := "100" }

/-- The transaction `demoPriceRow` normalizes to. -/
def demoPriceTx : Transaction :=
  { district := "", road := "", price := 100, unit_price := 0,
    building_area := 121 / 4, land_area := 0, building_age := none,
    transaction_date := "", building_type := "", floor := some "" }

theorem convertRow_demoPriceRow : convertRow demoPriceRow = some demoPriceTx := by
  have h1 : parseFloat? (stripCommas demoPriceRow.totalPrice) = some (1000000 : ℚ) := by
    decide
  have h2 : parseFloat? (stripCommas demoPriceRow.buildingAreaM2) = some (100 : ℚ) := by
    decide
  have h3 : parseFloat? (stripCommas demoPriceRow.unitPriceM2) = some (0 : ℚ) := by
    decide
  have h4 : parseFloat? (stripCommas demoPriceRow.landAreaM2) = some (0 : ℚ) := by
    decide
  have hage : ageField demoPriceRow.age = some none := rfl
  simp only [convertRow, convField_of_parse _ h1, convField_of_parse _ h2,
    convField_of_parse _ h3, convField_of_parse _ h4, hage, Option.bind_eq_bind,
    Option.some_bind, Option.pure_def, demoPriceTx, Option.some.injEq,
    Transaction.mk.injEq]
  refine ⟨by decide, by decide, round2_million_div_10000, ?_,
    round2_hundred_times_ratio, ?_, trivial, by decide, by decide, by decide⟩
  · rw [show ((0 : ℚ) * (3025 / 10000) / 10000) = 0 by norm_num]
    exact round2_zero
  · rw [show ((0 : ℚ) * (3025 / 10000)) = 0 by norm_num]
    exact round2_zero

/-- C4: the normalizer strips thousands separators before parsing, divides
monetary fields by 10 000 and multiplies square-meter areas by 0.3025 (the
unit price by both), rounding to 2 decimals; in particular raw price
`"1,000,000"` and raw area `"100"` normalize to 100.0 and 30.25. -/
theorem normalizer_units_and_separators :
    (∀ (row : Row) (tx : Transaction), convertRow row = some tx →
      (∀ q, parseFloat? (stripCommas row.totalPrice) = some q →
        tx.price = round2 (q / 10000)) ∧
      (∀ q, parseFloat? (stripCommas row.buildingAreaM2) = some q →
        tx.building_area = round2 (q * (3025 / 10000 : ℚ))) ∧
      (∀ q, parseFloat? (stripCommas row.unitPriceM2) = some q →
        tx.unit_price = round2 (q * (3025 / 10000 : ℚ) / 10000)) ∧
      (∀ q, parseFloat? (stripCommas row.landAreaM2) = some q →
        tx.land_area = round2 (q * (3025 / 10000 : ℚ)))) ∧
    (convertRow demoPriceRow).map (fun t => (t.price, t.building_area)) =
      some (100, 121 / 4) := by
  constructor
  · intro row tx h
    obtain ⟨p, ba, up, la, ag, hp, hba, hup, hla, hag, htx⟩ := convertRow_eq h
    refine ⟨?_, ?_, ?_, ?_⟩
    · intro q hq
      have := convField_of_parse (· / 10000) hq
      rw [hp] at this
      rw [htx, Option.some_inj.mp this]
    · intro q hq
      have := convField_of_parse (· * (3025 / 10000 : ℚ)) hq
      rw [hba] at this
      rw [htx, Option.some_inj.mp this]
    · intro q hq
      have := convField_of_parse (· * (3025 / 10000 : ℚ) / 10000) hq
      rw [hup] at this
      rw [htx, Option.some_inj.mp this]
    · intro q hq
      have := convField_of_parse (· * (3025 / 10000 : ℚ)) hq
      rw [hla] at this
      rw [htx, Option.some_inj.mp this]
  · rw [convertRow_demoPriceRow]
    rfl

/-- Witness for C4 at the concrete row: price `"1,000,000"` becomes
`round2 (1000000/10000)` and area `"100"` becomes `round2 (100 × 0.3025)`. -/
theorem normalizer_units_and_separators_witness :
    demoPriceTx.price = round2 ((1000000 : ℚ) / 10000) ∧
    demoPriceTx.building_area = round2 ((100 : ℚ) * (3025 / 10000 : ℚ)) :=
  ⟨(normalizer_units_and_separators.1 demoPriceRow demoPriceTx
      convertRow_demoPriceRow).1 1000000 (by decide),
   (normalizer_units_and_separators.1 demoPriceRow demoPriceTx
      convertRow_demoPriceRow).2.1 100 (by decide)⟩

/-- Counterexample to C5 as stated: a raw row with total price `"-100"` is
normalized (not rejected) into a transaction whose price is negative. -/
theorem transaction_nonneg_counterexample :
    (convertRow { totalPrice := "-100" }).map Transaction.price =
      some (-(1 / 100) : ℚ) ∧ (-(1 / 100) : ℚ) < 0 := by
  constructor
  · have h1 : parseFloat? (stripCommas ({ totalPrice := "-100" } : Row).totalPrice) =
        some (-100 : ℚ) := by decide
    have h2 : parseFloat? (stripCommas ({ totalPrice := "-100" } : Row).buildingAreaM2) =
        some (0 : ℚ) := by decide
    have h3 : parseFloat? (stripCommas ({ totalPrice := "-100" } : Row).unitPriceM2) =
        some (0 : ℚ) := by decide
    have h4 : parseFloat? (stripCommas ({ totalPrice := "-100" } : Row).landAreaM2) =
        some (0 : ℚ) := by decide
    have hage : ageField ({ totalPrice := "-100" } : Row).age = some none := rfl
    simp only [convertRow, convField_of_parse _ h1, convField_of_parse _ h2,
      convField_of_parse _ h3, convField_of_parse _ h4, hage, Option.bind_eq_bind,
      Option.some_bind, Option.pure_def, Option.map_some', Option.some.injEq]
    exact round2_neg_example
  · norm_num

/-- C5 (amended): provided every raw numeric field is empty or parses to a
nonnegative value, all numeric fields of the produced transaction are
nonnegative (the conversions themselves are the fixed constants of C4 and
are deterministic, being pure functions). -/
theorem transaction_fields_nonneg_of_nonneg_inputs :
    ∀ (row : Row) (tx : Transaction), convertRow row = some tx →
      (∀ q, parseFloat? (stripCommas row.totalPrice) = some q → 0 ≤ q) →
      (∀ q, parseFloat? (stripCommas row.buildingAreaM2) = some q → 0 ≤ q) →
      (∀ q, parseFloat? (stripCommas row.unitPriceM2) = some q → 0 ≤ q) →
      (∀ q, parseFloat? (stripCommas row.landAreaM2) = some q → 0 ≤ q) →
      (∀ q, parseFloat? row.age = some q → 0 ≤ q) →
      0 ≤ tx.price ∧ 0 ≤ tx.unit_price ∧ 0 ≤ tx.building_area ∧
      0 ≤ tx.land_area ∧ (∀ a ∈ tx.building_age, 0 ≤ a) := by
  intro row tx h hpr har hur hlr hag0
  obtain ⟨p, ba, up, la, ag, hp, hba, hup, hla, hag, htx⟩ := convertRow_eq h
  have hpn : 0 ≤ p := by
    rcases convField_cases hp with rfl | ⟨q, hq, rfl⟩
    · exact le_refl 0
    · have := hpr q hq
      positivity
  have hban : 0 ≤ ba := by
    rcases convField_cases hba with rfl | ⟨q, hq, rfl⟩
    · exact le_refl 0
    · have := har q hq
      positivity
  have hupn : 0 ≤ up := by
    rcases convField_cases hup with rfl | ⟨q, hq, rfl⟩
    · exact le_refl 0
    · have := hur q hq
      positivity
  have hlan : 0 ≤ la := by
    rcases convField_cases hla with rfl | ⟨q, hq, rfl⟩
    · exact le_refl 0
    · have := hlr q hq
      positivity
  rw [htx]
  refine ⟨round2_nonneg hpn, round2_nonneg hupn, round2_nonneg hban,
    round2_nonneg hlan, ?_⟩
  intro a ha
  rcases ageField_cases hag with rfl | ⟨q, hq, rfl⟩
  · cases ha
  · rcases Option.mem_some_iff.mp ha with rfl
    exact truncQ_nonneg (hag0 q hq)

/-- Witness for C5 (amended) at the concrete row `demoPriceRow`, whose raw
fields are all empty or nonnegative. -/
theorem transaction_fields_nonneg_witness :
    0 ≤ demoPriceTx.price ∧ 0 ≤ demoPriceTx.unit_price ∧
    0 ≤ demoPriceTx.building_area ∧ 0 ≤ demoPriceTx.land_area ∧
    (∀ a ∈ demoPriceTx.building_age, 0 ≤ a) := by
  refine transaction_fields_nonneg_of_nonneg_inputs demoPriceRow demoPriceTx
    convertRow_demoPriceRow ?_ ?_ ?_ ?_ ?_
  · intro q hq
    rw [show parseFloat? (stripCommas demoPriceRow.totalPrice) = some 1000000
      from by decide] at hq
    cases hq
    decide
  · intro q hq
    rw [show parseFloat? (stripCommas demoPriceRow.buildingAreaM2) = some 100
      from by decide] at hq
    cases hq
    decide
  · intro q hq
    rw [show parseFloat? (stripCommas demoPriceRow.unitPriceM2) = some 0
      from by decide] at hq
    cases hq
    decide
  · intro q hq
    rw [show parseFloat? (stripCommas demoPriceRow.landAreaM2) = some 0
      from by decide] at hq
    cases hq
    decide
  · intro q hq
    rw [show parseFloat? demoPriceRow.age = none from by decide] at hq
    cases hq

/-- Counterexample to C1 as stated: on a district whose data holds a
transaction from 2001 (period `09001`) and one from 2024 (period `11301`),
the query pipeline windows the data before aggregation, so the emitted
query-period label is `"11301 ~ 11301"`, not the pre-window label
`"09001 ~ 11301"` the spec describes. -/
theorem query_period_prewindow_counterexample :
    (fetch_moi_data demoData demoCutoff "北屯區" none).map queryPeriod =
      Except.ok "11301 ~ 11301" ∧
    specPreWindowPeriodLabel demoData "北屯區" none = "09001 ~ 11301" ∧
    ("11301 ~ 11301" : String) ≠ "09001 ~ 11301" := by
  exact ⟨by decide, by decide, by decide⟩

/-- C1 (amended): the query-period label is `"<earliest> ~ <latest>"` over
the period codes of the **windowed** subset the pipeline aggregates (the
transactions surviving both the district filter and the trailing 5-year
window), not the pre-window set. -/
theorem query_period_label_over_windowed :
    ∀ (allData : List Row) (cutoff : MDate) (district : String)
      (road : Option String) (txs : List Transaction),
      fetch_moi_data allData cutoff district road = Except.ok txs → txs ≠ [] →
      txs = windowedTransactions allData cutoff district road ∧
      ∃ earliest latest,
        earliest ∈ txs.map (fun t => t.transaction_date) ∧
        latest ∈ txs.map (fun t => t.transaction_date) ∧
        (∀ p ∈ txs.map (fun t => t.transaction_date),
          pyLe earliest p ∧ pyLe p latest) ∧
        queryPeriod txs = earliest ++ " ~ " ++ latest := by
  intro allData cutoff district road txs hf hne
  have htxs : txs = windowedTransactions allData cutoff district road := by
    unfold fetch_moi_data at hf
    split at hf
    · simp at hf
    · split at hf
      · simp at hf
      · simp only [Except.ok.injEq] at hf
        exact hf.symm

  refine ⟨htxs, ?_⟩
  cases txs with
  | nil => exact absurd rfl hne
  | cons tx rest =>
    have hlne : (tx :: rest).map (fun t => t.transaction_date) ≠ [] := by simp
    have hsne : sortStrings ((tx :: rest).map (fun t => t.transaction_date)) ≠ [] := by
      intro hc
      have := (sortStrings_perm ((tx :: rest).map (fun t => t.transaction_date))).length_eq
      rw [hc] at this
      simp at this
    have hsorted := sortStrings_sorted ((tx :: rest).map (fun t => t.transaction_date))
    have hperm := sortStrings_perm ((tx :: rest).map (fun t => t.transaction_date))
    refine ⟨(sortStrings ((tx :: rest).map (fun t => t.transaction_date))).headD "",
      (sortStrings ((tx :: rest).map (fun t => t.transaction_date))).getLastD "",
      ?_, ?_, ?_, ?_⟩
    · exact hperm.subset (headD_mem "" hsne)
    · exact hperm.subset (getLastD_mem _ "" hsne)
    · intro p hp
      have hp' := hperm.mem_iff.mpr hp
      exact ⟨sorted_headD_pyLe "" hsorted hp', sorted_le_getLastD_pyLe "" hsorted hp'⟩
    · rfl

/-- Witness for C1 (amended) at the demo data set. -/
theorem query_period_label_over_windowed_witness :
    windowedTransactions demoData demoCutoff "北屯區" none =
      windowedTransactions demoData demoCutoff "北屯區" none ∧
    ∃ earliest latest,
      earliest ∈ (windowedTransactions demoData demoCutoff "北屯區" none).map
        (fun t => t.transaction_date) ∧
      latest ∈ (windowedTransactions demoData demoCutoff "北屯區" none).map
        (fun t => t.transaction_date) ∧
      (∀ p ∈ (windowedTransactions demoData demoCutoff "北屯區" none).map
        (fun t => t.transaction_date), pyLe earliest p ∧ pyLe p latest) ∧
      queryPeriod (windowedTransactions demoData demoCutoff "北屯區" none) =
        earliest ++ " ~ " ++ latest :=
  query_period_label_over_windowed demoData demoCutoff "北屯區" none
    (windowedTransactions demoData demoCutoff "北屯區" none) rfl (by decide)

/-- C6: a query whose district filter matches no row fails with the
no-district error carrying the full sorted duplicate-free list of districts
present in the loaded source; a district with rows but none inside the
window fails with the distinct no-recent-data error, and the two error
messages differ for every payload. -/
theorem district_errors_distinguished :
    ∀ (allData : List Row) (cutoff : MDate) (district : String) (road : Option String),
      (filter_by_district_and_road allData district road = [] →
        fetch_moi_data allData cutoff district road =
          Except.error (QueryError.noDistrictData district
            (get_available_districts allData))) ∧
      List.Sorted pyLe (get_available_districts allData) ∧
      (get_available_districts allData).Nodup ∧
      (∀ d, d ∈ get_available_districts allData ↔
        d ≠ "" ∧ ∃ row ∈ allData, strip row.district = d) ∧
      (filter_by_district_and_road allData district road ≠ [] →
        filter_by_date_range (filter_by_district_and_road allData district road)
          cutoff = [] →
        fetch_moi_data allData cutoff district road =
          Except.error (QueryError.noRecentData district)) ∧
      (∀ avail d', errorMessage (QueryError.noDistrictData district avail) ≠
        errorMessage (QueryError.noRecentData d')) := by
  intro allData cutoff district road
  refine ⟨?_, sortStrings_sorted _, ?_, ?_, ?_,
    fun avail d' => errorMessage_distinct district avail d'⟩
  · intro h
    unfold fetch_moi_data
    rw [if_pos h]
  · exact ((sortStrings_perm _).nodup_iff).mpr (List.nodup_dedup _)
  · intro d
    unfold get_available_districts
    rw [(sortStrings_perm _).mem_iff]
    simp only [List.mem_dedup, List.mem_filter, List.mem_map, decide_eq_true_eq]
    constructor
    · rintro ⟨⟨row, hrow, hd⟩, hne⟩
      exact ⟨hne, row, hrow, hd⟩
    · rintro ⟨hne, row, hrow, hd⟩
      exact ⟨⟨row, hrow, hd⟩, hne⟩
  · intro h1 h2
    unfold fetch_moi_data
    rw [if_neg h1, if_pos h2]

/-- Witness for C6: a district absent from the demo data set produces the
no-district error whose payload is the sorted district list of the source,
and a district present but outside the window produces the other error. -/
theorem district_errors_distinguished_witness :
    fetch_moi_data [demoOldRow] demoCutoff "不存在區" none =
      Except.error (QueryError.noDistrictData "不存在區"
        (get_available_districts [demoOldRow])) ∧
    fetch_moi_data [demoOldRow] demoCutoff "北屯區" none =
      Except.error (QueryError.noRecentData "北屯區") :=
  ⟨(district_errors_distinguished [demoOldRow] demoCutoff "不存在區" none).1
      (by decide),
   (district_errors_distinguished [demoOldRow] demoCutoff "北屯區" none).2.2.2.2.1
      (by decide) (by decide)⟩

/-- C7: the persisted-version cache check is false without a last-download
timestamp, true exactly while the age is strictly below the 7-day TTL, and
at the boundary an age of exactly 6 days is valid while exactly 7 days is
not. -/
theorem cache_ttl_boundary :
    ∀ (last now : ℤ),
      is_cache_valid none now = false ∧
      (is_cache_valid (some last) now = true ↔
        now - last < CACHE_VALIDITY_DAYS * 86400) ∧
      is_cache_valid (some last) (last + 6 * 86400) = true ∧
      is_cache_valid (some last) (last + 7 * 86400) = false := by
  intro last now
  have h86 : (0 : ℤ) < 86400 := by norm_num
  refine ⟨rfl, ?_, ?_, ?_⟩
  · unfold is_cache_valid
    rw [decide_eq_true_eq, Int.fdiv_eq_ediv _ (le_of_lt h86),
      Int.ediv_lt_iff_lt_mul h86]
  · unfold is_cache_valid
    dsimp only
    rw [show last + 6 * 86400 - last = (6 * 86400 : ℤ) by ring]
    decide
  · unfold is_cache_valid
    dsimp only
    rw [show last + 7 * 86400 - last = (7 * 86400 : ℤ) by ring]
    decide

/-- The 12 successive backup file names of the retention scenario
(timestamp-suffixed, strictly increasing). -/
def demoBackupNames : List String :=
  ["taichung_prices_20250101_000000.csv", "taichung_prices_20250102_000000.csv",
   "taichung_prices_20250103_000000.csv", "taichung_prices_20250104_000000.csv",
   "taichung_prices_20250105_000000.csv", "taichung_prices_20250106_000000.csv",
   "taichung_prices_20250107_000000.csv", "taichung_prices_20250108_000000.csv",
   "taichung_prices_20250109_000000.csv", "taichung_prices_20250110_000000.csv",
   "taichung_prices_20250111_000000.csv", "taichung_prices_20250112_000000.csv"]

/-- C8: each backup run leaves at most 10 backups, keeping a name-order
suffix of the sorted names (so only the oldest beyond 10 are deleted, each
deleted name preceding every kept one); after 12 successive refreshes
exactly 10 backups remain, the 2 oldest removed. -/
theorem backup_retention_keeps_ten :
    (∀ (backups : List String) (newName : String),
      (backup_old_data backups newName).length ≤ 10 ∧
      (backup_old_data backups newName) <:+ sortStrings (backups ++ [newName]) ∧
      (∀ x ∈ sortStrings (backups ++ [newName]),
        x ∉ backup_old_data backups newName →
        ∀ y ∈ backup_old_data backups newName, pyLe x y)) ∧
    demoBackupNames.foldl backup_old_data [] = demoBackupNames.drop 2 ∧
    (demoBackupNames.drop 2).length = 10 := by
  refine ⟨?_, by decide, by decide⟩
  intro backups newName
  unfold backup_old_data
  by_cases h : 10 < (sortStrings (backups ++ [newName])).length
  · rw [if_pos h]
    refine ⟨?_, List.drop_suffix _ _, ?_⟩
    · rw [List.length_drop]
      omega
    · intro x hx hnx y hy
      have hsplit := List.take_append_drop
        ((sortStrings (backups ++ [newName])).length - 10)
        (sortStrings (backups ++ [newName]))
      have hxtake : x ∈ (sortStrings (backups ++ [newName])).take
          ((sortStrings (backups ++ [newName])).length - 10) := by
        rcases List.mem_append.mp (by rw [hsplit]; exact hx) with h' | h'
        · exact h'
        · exact absurd h' hnx
      exact (sortStrings_sorted (backups ++ [newName])).rel_of_mem_take_of_mem_drop
        hxtake hy
  · rw [if_neg h]
    refine ⟨by omega, List.suffix_refl _, ?_⟩
    intro x hx hnx _ _
    exact absurd hx hnx

/-- Witness for C8: on ten names plus a new oldest one, the deleted name
precedes the kept ones in name order. -/
theorem backup_retention_keeps_ten_witness :
    pyLe "a.csv" "b.csv" :=
  (backup_retention_keeps_ten.1
      ["b.csv", "c.csv", "d.csv", "e.csv", "f.csv", "g.csv", "h.csv", "i.csv",
       "j.csv", "k.csv"] "a.csv").2.2
    "a.csv" (by decide) (by decide) "b.csv" (by decide)

/-- Stated from the claim's words for comparison: remove only the exact
leading occurrence of 台中市, nothing else. -/
def dropLeadingCityName (area : String) : String :=
  if startsWith area "台中市" then ⟨area.data.drop "台中市".data.length⟩ else area

/-- Counterexample to C10 as stated: for the query `"台中市台中市北屯區"`,
removing only the exact prefix leaves text beginning with no district key —
so the claim demands a pre-load rejection — yet the code removes **all**
occurrences of 台中市 and proceeds to load data for 北屯區. -/
theorem exact_city_removal_counterexample :
    (TAICHUNG_DISTRICTS.find? (fun kv =>
      startsWith (dropLeadingCityName "台中市台中市北屯區") kv.1)).isNone = true ∧
    query_price_front "台中市台中市北屯區" =
      PreQueryResult.proceed "北屯區" (some "區") := by
  exact ⟨by decide, by decide⟩

/-- C10 (amended): a query whose text, after removing **all** occurrences of
台中市 and stripping whitespace, begins with no known district key is
rejected before any data is loaded; in particular the variant spelling
`"臺中市北屯區"` is rejected with suggestions while `"台中市北屯區"`
proceeds to the data load for 北屯區. -/
theorem unrecognized_area_rejected_before_load :
    (∀ area : String,
      TAICHUNG_DISTRICTS.find? (fun kv =>
        startsWith (strip (strReplace area "台中市" "")) kv.1) = none →
      ∃ e, query_price_front area = PreQueryResult.err e) ∧
    isUserInputErrorWithSuggestions (query_price_front "臺中市北屯區") = true ∧
    query_price_front "台中市北屯區" =
      PreQueryResult.proceed "北屯區" (some "區") := by
  refine ⟨?_, by decide, by decide⟩
  intro area h
  have hna : normalize_area area = (none, none) := by
    unfold normalize_area
    rw [h]
  unfold query_price_front
  rw [hna]
  cases hsug : suggest_similar_areas area with
  | nil => exact ⟨QueryError.unrecognizedAreaNoSuggestion area, rfl⟩
  | cons s rest => exact ⟨QueryError.unrecognizedArea area (s :: rest), rfl⟩

/-- Witness for C10 (amended) at the variant-spelling query. -/
theorem unrecognized_area_rejected_before_load_witness :
    ∃ e, query_price_front "臺中市北屯區" = PreQueryResult.err e :=
  unrecognized_area_rejected_before_load.1 "臺中市北屯區" (by decide)

end HomeScout
